import Mathlib

/-!
Shallow embedding of the react-hotkeys scope/hotkey routing core:
`src/hot-keys.tsx` (the `HotKeys` class), `src/utils/sequences-from-key-map.ts`
and `src/utils/has-changed.ts`, together with theorems checking the
natural-language specification against it.

Modelling conventions:
- JS objects used as maps (`HotKeyMap`, `handlers`) are association lists with
  lookup-by-first-occurrence; lodash `isEqual` is structural equality of the model.
- Handler functions are identified by an opaque reference id (`Nat`), matching
  lodash `isEqual`'s reference comparison of functions.
- The value passed around as a "sequence" at runtime (`string | undefined` from
  the matcher callback, `HotKey | null` in `__lastChildSequence__`) is `JSeq`,
  distinguishing JS `null` and `undefined`, which are distinct under `!==`.
- Side effects whose ordering the spec talks about (notifying ancestors,
  resetting matcher bindings, binding sequences, invoking a handler) are
  reified as an emitted `Event` trace.
-/

/-- A key sequence descriptor (`HotKey` in `src/types.ts`): a bare string or a
`{sequence, action}` pair. -/
inductive HotKey where
  | str (s : String)
  | pair (sequence : String) (action : String)
deriving DecidableEq, Repr

/-- A value of a `HotKeyMap` entry: `HotKey | HotKey[]`. -/
inductive MapEntry where
  | single (h : HotKey)
  | list (hs : List HotKey)
deriving DecidableEq, Repr

/-- `HotKeyMap` (`Record<string, HotKey | HotKey[]>`), as an association list. -/
abbrev HotKeyMap := List (String × MapEntry)

/-- The `handlers` prop: action name to handler-function reference id. -/
abbrev Handlers := List (String × Nat)

/-- A runtime "sequence" value: JS `null`, `undefined`, or a string. -/
inductive JSeq where
  | jnull
  | jundef
  | jstr (s : String)
deriving DecidableEq, Repr

/-- JS property lookup `m[k]` on an object modelled as an association list. -/
def jsGet : HotKeyMap → String → Option MapEntry
  | [], _ => none
  | (k2, v) :: rest, k => if k2 = k then some v else jsGet rest k

/-- JS truthiness of a `HotKey | HotKey[]` value: among the values of these
types only the empty string is falsy (objects and arrays are always truthy). -/
def entryTruthy : MapEntry → Bool
  | .single (.str s) => s ≠ ""
  | .single (.pair _ _) => true
  | .list _ => true

/-- `sequencesFromKeyMap` (`src/utils/sequences-from-key-map.ts`): resolves an
action name to its list of sequence descriptors; a name with no (truthy) entry
is treated as a hard-coded sequence. -/
def sequencesFromKeyMap (hotKeyMap : Option HotKeyMap) (hotKeyName : String) :
    List HotKey :=
  match hotKeyMap with
  | none => []
  | some m =>
    match jsGet m hotKeyName with
    | none => [HotKey.str hotKeyName]
    | some sequences =>
      if entryTruthy sequences then
        match sequences with
        | .list hs => hs
        | .single h => [h]
      else [HotKey.str hotKeyName]

/-- JS object spread `{...a, ...b}`: keys of `a` in order with `b`'s value where
`b` redefines them, then keys of `b` not in `a`. -/
def jsSpread (a b : HotKeyMap) : HotKeyMap :=
  a.map (fun p => match jsGet b p.1 with | some v => (p.1, v) | none => p) ++
    b.filter (fun p => (jsGet a p.1).isNone)

/-- `buildMap` (hot-keys.tsx lines 164-173): `{...parentMap, ...thisMap}` with
`context.hotKeyMap || {}` and `props.keyMap || {}`. -/
def buildMap (ctxHotKeyMap propsKeyMap : Option HotKeyMap) : HotKeyMap :=
  let parentMap := ctxHotKeyMap.getD []
  let thisMap := propsKeyMap.getD []
  jsSpread parentMap thisMap

/-- `updateMap` (hot-keys.tsx lines 147-157): rebuild, compare with the cached
`__hotKeyMap__` by deep equality, replace the cache and report `true` only on
inequality. Returns (changed, new cache). -/
def updateMap (ctxHotKeyMap propsKeyMap cache : Option HotKeyMap) :
    Bool × Option HotKeyMap :=
  let newMap := buildMap ctxHotKeyMap propsKeyMap
  if some newMap = cache then (false, cache) else (true, some newMap)

/-- `getMap` (hot-keys.tsx lines 178-180): `this.__hotKeyMap__ || {}`. -/
def getMap (cache : Option HotKeyMap) : HotKeyMap := cache.getD []

/-- `hasChanged` (`src/utils/has-changed.ts`): `!isEqual(newValue, previousValue)`. -/
def hasChanged (newValue previousValue : Handlers) : Bool :=
  decide (newValue ≠ previousValue)

/-- The mutable and configuration state of one mounted `HotKeys` scope:
`props.focused`, `props.keyMap`, `props.handlers`, `__isFocused__`,
`__lastChildSequence__` and `__hotKeyMap__`. -/
structure Scope where
  props_focused : Option Bool
  props_keyMap : Option HotKeyMap
  props_handlers : Handlers
  isFocused : Bool
  lastChildSequence : JSeq
  hotKeyMapCache : Option HotKeyMap
deriving DecidableEq, Repr

/-- A `SequenceHandler` record pushed to Mousetrap (`src/types.ts`): the
callback is the focus-gate closure over the handler with reference id
`handlerRef` (see `gateCallback`). -/
structure SequenceHandler where
  handlerRef : Nat
  action : Option String
  sequence : String
deriving DecidableEq, Repr

/-- Reified side effects, in the order the code performs them. -/
inductive Event where
  | notifyAncestors (s : JSeq)
  | invokeHandler (handler : Nat) (s : JSeq)
  | resetBindings
  | bindSequence (b : SequenceHandler)
deriving DecidableEq, Repr

/-- `childHandledSequence` (hot-keys.tsx lines 303-313) as seen from the chain
of a scope's ancestors, nearest first: each ancestor stores the sequence in its
`__lastChildSequence__` and passes it on to its own parent. -/
def childHandledSequence (s : JSeq) : List Scope → List Scope
  | [] => []
  | sc :: parents => { sc with lastChildSequence := s } :: childHandledSequence s parents

/-- The focus check of the matcher callback (hot-keys.tsx line 263):
`isBool(this.props.focused) ? this.props.focused : this.__isFocused__`. -/
def effectiveFocus (self : Scope) : Bool :=
  self.props_focused.getD self.isFocused

/-- The matcher callback registered by `syncHandlersToMousetrap` (hot-keys.tsx
lines 258-272): the focus gate around the handler with reference id `handler`.
`ancestors` is the chain of ancestor scopes, nearest first; returns the updated
chain and the trace of effects. -/
def gateCallback (handler : Nat) (self : Scope) (ancestors : List Scope) (s : JSeq) :
    List Scope × List Event :=
  if effectiveFocus self ∧ s ≠ self.lastChildSequence then
    match ancestors with
    | [] => ([], [Event.invokeHandler handler s])
    | _ :: _ =>
      (childHandledSequence s ancestors,
       [Event.notifyAncestors s, Event.invokeHandler handler s])
  else (ancestors, [])

/-- The `isObject(sequence)` unpacking in `syncHandlersToMousetrap` (hot-keys.tsx
lines 274-279): a pair descriptor yields its sequence with its action as the
discriminator, a bare string yields itself with no discriminator. -/
def mkSequenceHandler (handler : Nat) (sequence : HotKey) : SequenceHandler :=
  match sequence with
  | .str s => { handlerRef := handler, action := none, sequence := s }
  | .pair s a => { handlerRef := handler, action := some a, sequence := s }

/-- `mousetrap.reset()`: unbinds everything. -/
def mousetrapReset (_ : List SequenceHandler) : List SequenceHandler := []

/-- `syncHandlersToMousetrap` (hot-keys.tsx lines 238-292): groups handlers by
resolved sequence, then hard-resets Mousetrap and binds each `SequenceHandler`.
Returns the new Mousetrap binding list and the trace of effects. -/
def syncHandlersToMousetrap (handlers : Handlers) (cache : Option HotKeyMap)
    (mousetrap : List SequenceHandler) : List SequenceHandler × List Event :=
  let hotKeyMap := getMap cache
  let sequenceHandlers : List SequenceHandler :=
    handlers.foldl (fun acc hk =>
      (sequencesFromKeyMap (some hotKeyMap) hk.1).foldl
        (fun acc2 sequence => acc2 ++ [mkSequenceHandler hk.2 sequence]) acc) []
  let mt := sequenceHandlers.foldl (fun st b => st ++ [b]) (mousetrapReset mousetrap)
  (mt, Event.resetBindings :: sequenceHandlers.map Event.bindSequence)

/-- Firing a registered binding runs the focus gate wrapped around its handler:
the callback stored in a `SequenceHandler` is exactly `gateCallback` applied to
the handler it closed over (hot-keys.tsx lines 258-272). -/
def fireSequenceHandler (b : SequenceHandler) (self : Scope) (ancestors : List Scope)
    (s : JSeq) : List Scope × List Event :=
  gateCallback b.handlerRef self ancestors s

/-- The state after `updateHotKeys`: this scope, its ancestor chain, the
Mousetrap binding list, and the trace of effects. -/
structure UpdateResult where
  self : Scope
  ancestors : List Scope
  mousetrap : List SequenceHandler
  events : List Event
deriving DecidableEq, Repr

/-- `updateHotKeys` (hot-keys.tsx lines 220-232): update the cached map and, if
forced (mount), the map changed, or the handlers changed, notify the ancestor
chain of a `null` sequence and re-synchronise the bindings. `prevHandlers?` is
`prevProps.handlers` (`none` on mount, defaulting to the current handlers). -/
def updateHotKeys (ctx : Option HotKeyMap) (self : Scope) (ancestors : List Scope)
    (mousetrap : List SequenceHandler) (force : Bool) (prevHandlers? : Option Handlers) :
    UpdateResult :=
  let handlers := self.props_handlers
  let prevHandlers := prevHandlers?.getD handlers
  let r := updateMap ctx self.props_keyMap self.hotKeyMapCache
  let self2 : Scope := { self with hotKeyMapCache := r.2 }
  if force || r.1 || hasChanged handlers prevHandlers then
    let notifyEvents : List Event :=
      match ancestors with
      | [] => []
      | _ :: _ => [Event.notifyAncestors JSeq.jnull]
    let ancestors2 :=
      match ancestors with
      | [] => ancestors
      | _ :: _ => childHandledSequence JSeq.jnull ancestors
    let sync := syncHandlersToMousetrap self2.props_handlers self2.hotKeyMapCache mousetrap
    { self := self2, ancestors := ancestors2, mousetrap := sync.1,
      events := notifyEvents ++ sync.2 }
  else
    { self := self2, ancestors := ancestors, mousetrap := mousetrap, events := [] }

/-- `onFocus` (hot-keys.tsx lines 349-355): records observed focus. -/
def onFocus (self : Scope) : Scope := { self with isFocused := true }

/-- `onBlur` (hot-keys.tsx lines 364-374): records loss of observed focus and
notifies the ancestor chain (if any) that the `null` sequence is handled. -/
def onBlur (self : Scope) (ancestors : List Scope) : Scope × List Scope :=
  ({ self with isFocused := false },
   match ancestors with
   | [] => ancestors
   | _ :: _ => childHandledSequence JSeq.jnull ancestors)

/-- `componentWillUnmount` (hot-keys.tsx lines 206-214): notify the ancestor
chain (if any) of a `null` sequence, then reset Mousetrap. Returns the updated
ancestors, the Mousetrap binding list, and the trace of effects. -/
def componentWillUnmount (_self : Scope) (ancestors : List Scope)
    (mousetrap : List SequenceHandler) : List Scope × List SequenceHandler × List Event :=
  let notified : List Scope × List Event :=
    match ancestors with
    | [] => (ancestors, [])
    | _ :: _ => (childHandledSequence JSeq.jnull ancestors, [Event.notifyAncestors JSeq.jnull])
  (notified.1, mousetrapReset mousetrap, notified.2 ++ [Event.resetBindings])

/-- A focus or blur transition observed by a scope. -/
inductive FocusTransition where
  | focusGained
  | focusLost
deriving DecidableEq, Repr

/-- Applies a history of observed focus/blur transitions to a scope and its
ancestor chain, via `onFocus` and `onBlur`. -/
def applyFocusHistory : List FocusTransition → Scope × List Scope → Scope × List Scope
  | [], st => st
  | t :: ts, (self, ancestors) =>
    match t with
    | .focusGained => applyFocusHistory ts (onFocus self, ancestors)
    | .focusLost => applyFocusHistory ts (onBlur self ancestors)

/-- Configuration errors the spec requires for the bind-target props. -/
inductive ConfigurationError where
  | bothAttachAndRef
  | neitherAttachNorRef
deriving DecidableEq, Repr

/-- The bind-target resolution of `componentDidMount` (hot-keys.tsx lines
185-196): `'attach' in props ? props.attach : props.attachRef?.current`, then
`el || ReactDOM.findDOMNode(this)`. DOM elements are opaque ids; the result is
an `Except` so that a rejection with `ConfigurationError` would be expressible,
but the code never rejects. -/
def componentDidMountTarget (attach attachRefCurrent : Option Nat) (fallbackNode : Nat) :
    Except ConfigurationError Nat :=
  let el := if attach.isSome then attach else attachRefCurrent
  Except.ok (el.getD fallbackNode)

/-! Helper lemmas about the embedded operations. -/

theorem jsGet_append (a b : HotKeyMap) (k : String) :
    jsGet (a ++ b) k
      = match jsGet a k with
        | some v => some v
        | none => jsGet b k := by
  induction a with
  | nil => simp [jsGet]
  | cons p rest ih =>
    obtain ⟨k2, v⟩ := p
    by_cases hk : k2 = k <;> simp [jsGet, hk, ih]

theorem jsGet_map_override (a b : HotKeyMap) (k : String) :
    jsGet (a.map (fun p => match jsGet b p.1 with | some v => (p.1, v) | none => p)) k
      = match jsGet a k with
        | none => none
        | some v =>
          match jsGet b k with
          | some w => some w
          | none => some v := by
  induction a with
  | nil => simp [jsGet]
  | cons p rest ih =>
    obtain ⟨k2, v⟩ := p
    by_cases hk : k2 = k
    · subst hk
      cases hb : jsGet b k2 <;> simp [jsGet, hb]
    · cases hb : jsGet b k2 <;> simp [jsGet, hb, hk, ih]

theorem jsGet_filter_shadowed (a b : HotKeyMap) (k : String) :
    jsGet (b.filter (fun p => (jsGet a p.1).isNone)) k
      = if (jsGet a k).isNone then jsGet b k else none := by
  induction b with
  | nil => simp [jsGet]
  | cons p rest ih =>
    obtain ⟨k2, v⟩ := p
    by_cases hk : k2 = k
    · subst hk
      cases ha : jsGet a k2 <;> simp [jsGet, ha, ih]
    · cases ha : jsGet a k2 <;> cases ha2 : jsGet a k <;>
        simp [jsGet, ha, ha2, hk, ih]

theorem jsGet_jsSpread (a b : HotKeyMap) (k : String) :
    jsGet (jsSpread a b) k
      = match jsGet b k with
        | some v => some v
        | none => jsGet a k := by
  unfold jsSpread
  rw [jsGet_append, jsGet_map_override, jsGet_filter_shadowed]
  cases ha : jsGet a k <;> cases hb : jsGet b k <;> simp

theorem childHandledSequence_eq_map (s : JSeq) (ch : List Scope) :
    childHandledSequence s ch = ch.map (fun sc => { sc with lastChildSequence := s }) := by
  induction ch with
  | nil => rfl
  | cons sc rest ih => simp [childHandledSequence, ih]

theorem childHandledSequence_getElem (s : JSeq) (ch : List Scope) (i : Nat) :
    (childHandledSequence s ch)[i]?
      = ch[i]?.map (fun sc => { sc with lastChildSequence := s }) := by
  simp [childHandledSequence_eq_map]

theorem foldl_push_eq {α β : Type} (f : α → β) (l : List α) (init : List β) :
    l.foldl (fun acc x => acc ++ [f x]) init = init ++ l.map f := by
  induction l generalizing init with
  | nil => simp
  | cons x xs ih => simp [ih]

theorem foldl_push_id {β : Type} (l : List β) (init : List β) :
    l.foldl (fun acc x => acc ++ [x]) init = init ++ l := by
  induction l generalizing init with
  | nil => simp
  | cons x xs ih => simp [ih]

theorem foldl_append_eq {α β : Type} (g : α → List β) (l : List α) (init : List β) :
    l.foldl (fun acc x => acc ++ g x) init = init ++ l.flatMap g := by
  induction l generalizing init with
  | nil => simp
  | cons x xs ih => simp [ih]

theorem handlers_fold_eq (handlers : Handlers) (m : HotKeyMap)
    (init : List SequenceHandler) :
    handlers.foldl (fun acc hk =>
        (sequencesFromKeyMap (some m) hk.1).foldl
          (fun acc2 sequence => acc2 ++ [mkSequenceHandler hk.2 sequence]) acc) init
      = init ++ handlers.flatMap (fun hk =>
          (sequencesFromKeyMap (some m) hk.1).map (mkSequenceHandler hk.2)) := by
  simp only [foldl_push_eq]
  exact foldl_append_eq _ _ _

theorem syncHandlersToMousetrap_spec (handlers : Handlers) (cache : Option HotKeyMap)
    (mousetrap : List SequenceHandler) :
    syncHandlersToMousetrap handlers cache mousetrap
      = (handlers.flatMap (fun hk =>
            (sequencesFromKeyMap (some (getMap cache)) hk.1).map (mkSequenceHandler hk.2)),
         Event.resetBindings ::
           (handlers.flatMap (fun hk =>
              (sequencesFromKeyMap (some (getMap cache)) hk.1).map
                (mkSequenceHandler hk.2))).map Event.bindSequence) := by
  unfold syncHandlersToMousetrap mousetrapReset
  simp [handlers_fold_eq, foldl_push_id]

theorem option_map_ext {α β : Type} (f g : α → β) (o : Option α) (h : ∀ a, f a = g a) :
    o.map f = o.map g := by
  cases o <;> simp [h]

theorem applyFocusHistory_props_focused (hist : List FocusTransition)
    (st : Scope × List Scope) :
    ((applyFocusHistory hist st).1).props_focused = st.1.props_focused := by
  induction hist generalizing st with
  | nil => rfl
  | cons t ts ih =>
    obtain ⟨self, ancestors⟩ := st
    cases t <;> simp [applyFocusHistory, onFocus, onBlur, ih]

/-! Claim theorems. -/

/-- Claim C3: for every ancestorMap and localMap, `buildMap` binds every action
name present in localMap to exactly localMap's entry (whole-value replacement),
and every action name present only in ancestorMap to ancestorMap's entry
unchanged. -/
theorem buildMap_local_overrides (A L : HotKeyMap) (name : String) :
    (∀ e, jsGet L name = some e → jsGet (buildMap (some A) (some L)) name = some e) ∧
    (jsGet L name = none → jsGet (buildMap (some A) (some L)) name = jsGet A name) := by
  constructor
  · intro e he
    simp [buildMap, jsGet_jsSpread, he]
  · intro he
    simp [buildMap, jsGet_jsSpread, he]

/-- Witness for C3 at the spec's own example: ancestor and descendant both
define "x" (descendant wins, whole value) and only the ancestor defines "y". -/
theorem buildMap_local_overrides_witness :
    jsGet (buildMap
        (some [("x", MapEntry.list [HotKey.str "a", HotKey.str "b"]), ("y", MapEntry.single (HotKey.str "c"))])
        (some [("x", MapEntry.single (HotKey.pair "d" "keyup"))])) "x"
      = some (MapEntry.single (HotKey.pair "d" "keyup")) ∧
    jsGet (buildMap
        (some [("x", MapEntry.list [HotKey.str "a", HotKey.str "b"]), ("y", MapEntry.single (HotKey.str "c"))])
        (some [("x", MapEntry.single (HotKey.pair "d" "keyup"))])) "y"
      = some (MapEntry.single (HotKey.str "c")) :=
  ⟨(buildMap_local_overrides _ _ "x").1 _ (by decide),
   ((buildMap_local_overrides _ _ "y").2 (by decide)).trans (by decide)⟩

/-- Counterexample to claim C4: in the map `{"x": ""}` the action name "x" has
an entry that is a single (bare string) descriptor, yet `sequencesFromKeyMap`
does not return the one-element list wrapping that entry: the empty string is
JS-falsy, so the `!sequences` branch treats it as absent and returns the action
name itself. -/
theorem sequencesFromKeyMap_empty_string_cex :
    jsGet [("x", MapEntry.single (HotKey.str ""))] "x"
      = some (MapEntry.single (HotKey.str "")) ∧
    sequencesFromKeyMap (some [("x", MapEntry.single (HotKey.str ""))]) "x"
      = [HotKey.str "x"] ∧
    sequencesFromKeyMap (some [("x", MapEntry.single (HotKey.str ""))]) "x"
      ≠ [HotKey.str ""] := by
  refine ⟨by decide, by decide, by decide⟩

/-- Claim C4 as amended: for every (non-null) mergedMap and actionName,
resolve returns [actionName] when there is no entry; the entry unchanged when
the entry is a list; the one-element list wrapping the entry when the entry is
a single descriptor other than the JS-falsy empty string; and [actionName]
when the entry is the empty string. -/
theorem sequencesFromKeyMap_cases (m : HotKeyMap) (name : String) :
    (jsGet m name = none → sequencesFromKeyMap (some m) name = [HotKey.str name]) ∧
    (∀ hs, jsGet m name = some (MapEntry.list hs) →
      sequencesFromKeyMap (some m) name = hs) ∧
    (∀ h, jsGet m name = some (MapEntry.single h) → h ≠ HotKey.str "" →
      sequencesFromKeyMap (some m) name = [h]) ∧
    (jsGet m name = some (MapEntry.single (HotKey.str "")) →
      sequencesFromKeyMap (some m) name = [HotKey.str name]) := by
  refine ⟨?_, ?_, ?_, ?_⟩
  · intro he
    simp [sequencesFromKeyMap, he]
  · intro hs he
    simp [sequencesFromKeyMap, he, entryTruthy]
  · intro h he hne
    cases h with
    | str s =>
      have hs : s ≠ "" := by
        intro h0
        exact hne (by rw [h0])
      simp [sequencesFromKeyMap, he, entryTruthy, hs]
    | pair s a => simp [sequencesFromKeyMap, he, entryTruthy]
  · intro he
    simp [sequencesFromKeyMap, he, entryTruthy]

/-- Witness for the amended C4 at the spec's examples and the falsy edge case. -/
theorem sequencesFromKeyMap_cases_witness :
    sequencesFromKeyMap (some [("z", MapEntry.single (HotKey.str "a"))]) "y"
      = [HotKey.str "y"] ∧
    sequencesFromKeyMap (some [("y", MapEntry.list [HotKey.str "a", HotKey.str "b"])]) "y"
      = [HotKey.str "a", HotKey.str "b"] ∧
    sequencesFromKeyMap (some [("y", MapEntry.single (HotKey.str "a"))]) "y"
      = [HotKey.str "a"] ∧
    sequencesFromKeyMap (some [("x", MapEntry.single (HotKey.str ""))]) "x"
      = [HotKey.str "x"] :=
  ⟨(sequencesFromKeyMap_cases _ "y").1 (by decide),
   (sequencesFromKeyMap_cases _ "y").2.1 _ (by decide),
   (sequencesFromKeyMap_cases _ "y").2.2.1 _ (by decide) (by decide),
   (sequencesFromKeyMap_cases _ "x").2.2.2 (by decide)⟩

/-- Claim C5: `updateMap` compares the freshly built map against the cached
mergedMap structurally; on equality it reports unchanged (false) and leaves the
cache untouched, on inequality it replaces the cache and reports changed
(true); a second call with unchanged inputs always reports unchanged, and an
update cycle whose inputs left the cached map and handlers unchanged triggers
no rebind (no events, bindings and ancestors untouched). -/
theorem updateMap_cache_behaviour (ctx keyMap cache : Option HotKeyMap)
    (self : Scope) (ancestors : List Scope) (mousetrap : List SequenceHandler) :
    (cache = some (buildMap ctx keyMap) → updateMap ctx keyMap cache = (false, cache)) ∧
    (cache ≠ some (buildMap ctx keyMap) →
      updateMap ctx keyMap cache = (true, some (buildMap ctx keyMap))) ∧
    (updateMap ctx keyMap (updateMap ctx keyMap cache).2
      = (false, (updateMap ctx keyMap cache).2)) ∧
    (self.hotKeyMapCache = some (buildMap ctx self.props_keyMap) →
      updateHotKeys ctx self ancestors mousetrap false (some self.props_handlers)
        = { self := self, ancestors := ancestors, mousetrap := mousetrap, events := [] }) := by
  refine ⟨?_, ?_, ?_, ?_⟩
  · intro he
    simp [updateMap, he]
  · intro he
    simp [updateMap]
    intro h2
    exact absurd h2.symm he
  · by_cases he : some (buildMap ctx keyMap) = cache <;> simp [updateMap, he]
  · intro he
    have h1 : updateMap ctx self.props_keyMap self.hotKeyMapCache = (false, self.hotKeyMapCache) := by
      simp [updateMap, he]
    simp [updateHotKeys, h1, hasChanged]

/-- Witness for C5 on a concrete configuration whose cache is in sync. -/
theorem updateMap_cache_behaviour_witness :
    updateMap none (some [("x", MapEntry.single (HotKey.str "a"))])
        (some [("x", MapEntry.single (HotKey.str "a"))])
      = (false, some [("x", MapEntry.single (HotKey.str "a"))]) ∧
    updateMap none (some [("x", MapEntry.single (HotKey.str "a"))]) none
      = (true, some [("x", MapEntry.single (HotKey.str "a"))]) ∧
    updateHotKeys none
        ⟨none, some [("x", MapEntry.single (HotKey.str "a"))], [("x", 7)], true,
          JSeq.jnull, some [("x", MapEntry.single (HotKey.str "a"))]⟩
        [] [⟨7, none, "a"⟩] false (some [("x", 7)])
      = { self := ⟨none, some [("x", MapEntry.single (HotKey.str "a"))], [("x", 7)], true,
            JSeq.jnull, some [("x", MapEntry.single (HotKey.str "a"))]⟩,
          ancestors := [], mousetrap := [⟨7, none, "a"⟩], events := [] } :=
  ⟨(updateMap_cache_behaviour none _ _ ⟨none, none, [], true, JSeq.jnull, none⟩ [] []).1 (by decide),
   ((updateMap_cache_behaviour none _ none ⟨none, none, [], true, JSeq.jnull, none⟩ [] []).2.1
      (by decide)).trans (by decide),
   (updateMap_cache_behaviour none (some [("x", MapEntry.single (HotKey.str "a"))]) none
      ⟨none, some [("x", MapEntry.single (HotKey.str "a"))], [("x", 7)], true,
        JSeq.jnull, some [("x", MapEntry.single (HotKey.str "a"))]⟩
      [] [⟨7, none, "a"⟩]).2.2.2 (by decide)⟩

/-- Claim C1: when the focus gate fires a sequence (effective focus true and
the sequence differs from `__lastChildSequence__`), it first sets every
ancestor's `__lastChildSequence__` to the fired sequence, nearest to root, and
only then invokes the handler (trace order: notify before invoke); when the
fired sequence equals `__lastChildSequence__`, the handler is not invoked and
no state changes. -/
theorem gate_fire_and_suppress (handler : Nat) (self : Scope) (ancestors : List Scope)
    (s : JSeq) :
    (effectiveFocus self = true → s ≠ self.lastChildSequence →
      (gateCallback handler self ancestors s).1 = childHandledSequence s ancestors ∧
      (∀ i : Nat, ((gateCallback handler self ancestors s).1)[i]?.map (fun sc => sc.lastChildSequence)
          = ancestors[i]?.map (fun _ => s)) ∧
      (gateCallback handler self ancestors s).2
        = (match ancestors with
           | [] => [Event.invokeHandler handler s]
           | _ :: _ => [Event.notifyAncestors s, Event.invokeHandler handler s])) ∧
    (s = self.lastChildSequence →
      gateCallback handler self ancestors s = (ancestors, [])) := by
  constructor
  · intro hf hs
    refine ⟨?_, ?_, ?_⟩
    · cases ancestors <;> simp [gateCallback, hf, hs, childHandledSequence]
    · intro i
      cases ancestors with
      | nil => simp [gateCallback, hf, hs]
      | cons a rest =>
        simp [gateCallback, hf, hs, childHandledSequence_getElem]
        exact option_map_ext _ _ _ (fun sc => rfl)
    · cases ancestors <;> simp [gateCallback, hf, hs]
  · intro he
    simp [gateCallback, he]

/-- Witness for C1: a focused scope with one ancestor fires "a" (notify then
invoke, ancestor updated), and a scope whose `__lastChildSequence__` is already
"a" suppresses it without any change. -/
theorem gate_fire_and_suppress_witness :
    (gateCallback 5 ⟨none, none, [], true, JSeq.jnull, none⟩
        [⟨none, none, [], false, JSeq.jnull, none⟩] (JSeq.jstr "a")).1
      = [⟨none, none, [], false, JSeq.jstr "a", none⟩] ∧
    (gateCallback 5 ⟨none, none, [], true, JSeq.jnull, none⟩
        [⟨none, none, [], false, JSeq.jnull, none⟩] (JSeq.jstr "a")).2
      = [Event.notifyAncestors (JSeq.jstr "a"), Event.invokeHandler 5 (JSeq.jstr "a")] ∧
    gateCallback 5 ⟨none, none, [], true, JSeq.jstr "a", none⟩
        [⟨none, none, [], false, JSeq.jnull, none⟩] (JSeq.jstr "a")
      = ([⟨none, none, [], false, JSeq.jnull, none⟩], []) :=
  ⟨(((gate_fire_and_suppress 5 ⟨none, none, [], true, JSeq.jnull, none⟩
        [⟨none, none, [], false, JSeq.jnull, none⟩] (JSeq.jstr "a")).1
      (by decide) (by decide)).1).trans (by decide),
   ((gate_fire_and_suppress 5 ⟨none, none, [], true, JSeq.jnull, none⟩
        [⟨none, none, [], false, JSeq.jnull, none⟩] (JSeq.jstr "a")).1
      (by decide) (by decide)).2.2,
   (gate_fire_and_suppress 5 ⟨none, none, [], true, JSeq.jstr "a", none⟩
        [⟨none, none, [], false, JSeq.jnull, none⟩] (JSeq.jstr "a")).2 rfl⟩

/-- Claim C2: a scope whose `focused` prop is `false` never invokes any handler
through the gate, for every fired sequence and every history of focus/blur
events; effective focus is the `focused` prop when it is a boolean and the
observed `__isFocused__` otherwise. -/
theorem forced_focus_false_suppresses (hist : List FocusTransition) (handler : Nat)
    (self : Scope) (ancestors : List Scope) (s : JSeq)
    (h : self.props_focused = some false) :
    effectiveFocus (applyFocusHistory hist (self, ancestors)).1 = false ∧
    gateCallback handler (applyFocusHistory hist (self, ancestors)).1
        (applyFocusHistory hist (self, ancestors)).2 s
      = ((applyFocusHistory hist (self, ancestors)).2, []) ∧
    (∀ sc : Scope, ∀ b : Bool, sc.props_focused = some b → effectiveFocus sc = b) ∧
    (∀ sc : Scope, sc.props_focused = none → effectiveFocus sc = sc.isFocused) := by
  have hp : ((applyFocusHistory hist (self, ancestors)).1).props_focused = some false := by
    rw [applyFocusHistory_props_focused]
    exact h
  have hf : effectiveFocus (applyFocusHistory hist (self, ancestors)).1 = false := by
    simp [effectiveFocus, hp]
  refine ⟨hf, ?_, ?_, ?_⟩
  · simp [gateCallback, hf]
  · intro sc b hb
    simp [effectiveFocus, hb]
  · intro sc hb
    simp [effectiveFocus, hb]

/-- Witness for C2: after gaining observed focus, a scope with `focused =
false` still suppresses the fired sequence "a". -/
theorem forced_focus_false_suppresses_witness :
    gateCallback 3 ⟨some false, none, [], true, JSeq.jnull, none⟩ [] (JSeq.jstr "a")
      = ([], []) :=
  (forced_focus_false_suppresses [FocusTransition.focusGained] 3
    ⟨some false, none, [], false, JSeq.jnull, none⟩ [] (JSeq.jstr "a") rfl).2.1

/-- Claim C6: on mount (forced) and on any update where the merged map changed
or the handlers changed, the synchronizer discards all existing matcher
bindings and registers exactly one binding per resolved sequence descriptor for
every (actionName, handler) pair, the pair descriptor's action discriminator
passed through unmodified, and every registered callback being the focus gate
wrapped around the closed-over handler. -/
theorem updateHotKeys_rebind (ctx : Option HotKeyMap) (self : Scope) (ancestors : List Scope)
    (mousetrap : List SequenceHandler) (force : Bool) (prevHandlers? : Option Handlers)
    (h : (force || (updateMap ctx self.props_keyMap self.hotKeyMapCache).1
        || hasChanged self.props_handlers (prevHandlers?.getD self.props_handlers)) = true) :
    (updateHotKeys ctx self ancestors mousetrap force prevHandlers?).mousetrap
      = self.props_handlers.flatMap (fun hk =>
          (sequencesFromKeyMap
              (some (getMap (updateMap ctx self.props_keyMap self.hotKeyMapCache).2)) hk.1).map
            (mkSequenceHandler hk.2)) ∧
    (∀ hr sq a, mkSequenceHandler hr (HotKey.pair sq a)
        = { handlerRef := hr, action := some a, sequence := sq }) ∧
    (∀ hr sq, mkSequenceHandler hr (HotKey.str sq)
        = { handlerRef := hr, action := none, sequence := sq }) ∧
    (∀ b sc anc sq, fireSequenceHandler b sc anc sq = gateCallback b.handlerRef sc anc sq) := by
  refine ⟨?_, fun _ _ _ => rfl, fun _ _ => rfl, fun _ _ _ _ => rfl⟩
  simp [updateHotKeys, h, syncHandlersToMousetrap_spec]

/-- Witness for C6: a forced sync replaces a stale binding with exactly one
binding whose action discriminator "keyup" comes through unmodified. -/
theorem updateHotKeys_rebind_witness :
    (updateHotKeys none
        ⟨none, some [("x", MapEntry.single (HotKey.pair "ctrl+a" "keyup"))], [("x", 7)], false,
          JSeq.jnull, none⟩
        [] [⟨0, none, "z"⟩] true none).mousetrap
      = [⟨7, some "keyup", "ctrl+a"⟩] :=
  ((updateHotKeys_rebind none
      ⟨none, some [("x", MapEntry.single (HotKey.pair "ctrl+a" "keyup"))], [("x", 7)], false,
        JSeq.jnull, none⟩
      [] [⟨0, none, "z"⟩] true none (by decide)).1).trans (by decide)

/-- Claim C7: on focus loss a scope records `__isFocused__ = false` and sets
every ancestor's `__lastChildSequence__` to the null sequence; on unmount it
performs the same null-clearing notification and then releases all matcher
bindings, in that order (trace: notify, then reset). -/
theorem blur_and_unmount_clear_delegation (self : Scope) (ancestors : List Scope)
    (mousetrap : List SequenceHandler) :
    (onBlur self ancestors).1 = { self with isFocused := false } ∧
    (∀ i : Nat, ((onBlur self ancestors).2)[i]?.map (fun sc => sc.lastChildSequence)
        = ancestors[i]?.map (fun _ => JSeq.jnull)) ∧
    (∀ i : Nat, ((componentWillUnmount self ancestors mousetrap).1)[i]?.map
          (fun sc => sc.lastChildSequence)
        = ancestors[i]?.map (fun _ => JSeq.jnull)) ∧
    (componentWillUnmount self ancestors mousetrap).2.1 = [] ∧
    (componentWillUnmount self ancestors mousetrap).2.2
      = (match ancestors with
         | [] => ([] : List Event)
         | _ :: _ => [Event.notifyAncestors JSeq.jnull]) ++ [Event.resetBindings] := by
  refine ⟨rfl, ?_, ?_, ?_, ?_⟩
  · intro i
    cases ancestors with
    | nil => simp [onBlur]
    | cons a rest =>
      simp [onBlur, childHandledSequence_getElem]
      exact option_map_ext _ _ _ (fun sc => rfl)
  · intro i
    cases ancestors with
    | nil => simp [componentWillUnmount]
    | cons a rest =>
      simp [componentWillUnmount, childHandledSequence_getElem]
      exact option_map_ext _ _ _ (fun sc => rfl)
  · cases ancestors <;> rfl
  · cases ancestors <;> rfl

/-- Counterexample to claim C8: supplying both `attach` and an `attachRef`
silently uses `attach`, and supplying neither silently falls back to the
scope's own focus-boundary node; neither case is rejected with a
`ConfigurationError`. -/
theorem attach_silent_fallback_cex :
    componentDidMountTarget (some 1) (some 2) 0 = Except.ok 1 ∧
    componentDidMountTarget none none 5 = Except.ok 5 := ⟨rfl, rfl⟩

/-- Claim C8 as amended: the bind-target resolution performs no validation and
never fails with a `ConfigurationError`: `attach` wins when present (even if an
`attachRef` is also supplied), otherwise the ref's element is used, otherwise
it silently falls back to the scope's own focus-boundary node. -/
theorem attach_target_resolution (attach ref : Option Nat) (node : Nat) :
    (∀ a, attach = some a → componentDidMountTarget attach ref node = Except.ok a) ∧
    (attach = none → ∀ r, ref = some r →
      componentDidMountTarget attach ref node = Except.ok r) ∧
    (attach = none → ref = none →
      componentDidMountTarget attach ref node = Except.ok node) ∧
    (∀ e, componentDidMountTarget attach ref node ≠ Except.error e) := by
  refine ⟨?_, ?_, ?_, ?_⟩
  · intro a ha
    subst ha
    simp [componentDidMountTarget]
  · intro ha r hr
    subst ha
    subst hr
    simp [componentDidMountTarget]
  · intro ha hr
    subst ha
    subst hr
    simp [componentDidMountTarget]
  · intro e
    cases attach <;> cases ref <;> simp [componentDidMountTarget]

/-- Witness for the amended C8 at the three concrete configurations. -/
theorem attach_target_resolution_witness :
    componentDidMountTarget (some 3) none 9 = Except.ok 3 ∧
    componentDidMountTarget none (some 4) 9 = Except.ok 4 ∧
    componentDidMountTarget none none 9 = Except.ok 9 :=
  ⟨(attach_target_resolution (some 3) none 9).1 3 rfl,
   (attach_target_resolution none (some 4) 9).2.1 rfl 4 rfl,
   (attach_target_resolution none none 9).2.2.1 rfl rfl⟩

/-- Claim C9: every operation of a scope leaves each ancestor's observed focus,
keyMap prop (localMap) and cached merged map untouched; the ancestor chain it
returns is either unchanged or the result of the upward-notify operation
`childHandledSequence`, which itself rewrites only `__lastChildSequence__`. -/
theorem cross_scope_frame (handler : Nat) (ctx : Option HotKeyMap) (self : Scope)
    (ancestors : List Scope) (mousetrap : List SequenceHandler) (force : Bool)
    (prevHandlers? : Option Handlers) (s : JSeq) :
    ((gateCallback handler self ancestors s).1 = ancestors ∨
      (gateCallback handler self ancestors s).1 = childHandledSequence s ancestors) ∧
    ((onBlur self ancestors).2 = ancestors ∨
      (onBlur self ancestors).2 = childHandledSequence JSeq.jnull ancestors) ∧
    ((componentWillUnmount self ancestors mousetrap).1 = ancestors ∨
      (componentWillUnmount self ancestors mousetrap).1
        = childHandledSequence JSeq.jnull ancestors) ∧
    ((updateHotKeys ctx self ancestors mousetrap force prevHandlers?).ancestors = ancestors ∨
      (updateHotKeys ctx self ancestors mousetrap force prevHandlers?).ancestors
        = childHandledSequence JSeq.jnull ancestors) ∧
    (∀ i : Nat, ((childHandledSequence s ancestors)[i]?).map
          (fun sc => (sc.isFocused, sc.props_focused, sc.props_keyMap, sc.props_handlers,
            sc.hotKeyMapCache))
        = (ancestors[i]?).map
          (fun sc => (sc.isFocused, sc.props_focused, sc.props_keyMap, sc.props_handlers,
            sc.hotKeyMapCache))) := by
  refine ⟨?_, ?_, ?_, ?_, ?_⟩
  · by_cases hc : effectiveFocus self ∧ s ≠ self.lastChildSequence
    · right
      obtain ⟨h1, h2⟩ := hc
      cases ancestors <;> simp [gateCallback, h1, h2, childHandledSequence]
    · left
      simp [gateCallback, hc]
  · cases ancestors with
    | nil => exact Or.inl rfl
    | cons a rest => exact Or.inr rfl
  · cases ancestors with
    | nil => exact Or.inl rfl
    | cons a rest => exact Or.inr rfl
  · cases hcond : (force || (updateMap ctx self.props_keyMap self.hotKeyMapCache).1
        || hasChanged self.props_handlers (prevHandlers?.getD self.props_handlers)) with
    | false =>
      left
      simp [updateHotKeys, hcond]
    | true =>
      cases ancestors with
      | nil =>
        left
        simp [updateHotKeys, hcond]
      | cons a rest =>
        right
        simp [updateHotKeys, hcond]
  · intro i
    simp [childHandledSequence_getElem, Option.map_map]
    exact option_map_ext _ _ _ (fun sc => rfl)

/-- Claim C10: on every rebind-triggering update a scope with an ancestor also
resets every ancestor's `__lastChildSequence__` to the null sequence, and the
notification happens before the bindings are reset and rebuilt. -/
theorem updateHotKeys_clears_then_rebinds (ctx : Option HotKeyMap) (self : Scope)
    (a0 : Scope) (rest : List Scope) (mousetrap : List SequenceHandler) (force : Bool)
    (prevHandlers? : Option Handlers)
    (h : (force || (updateMap ctx self.props_keyMap self.hotKeyMapCache).1
        || hasChanged self.props_handlers (prevHandlers?.getD self.props_handlers)) = true) :
    (updateHotKeys ctx self (a0 :: rest) mousetrap force prevHandlers?).ancestors
      = childHandledSequence JSeq.jnull (a0 :: rest) ∧
    (∀ i : Nat, ((updateHotKeys ctx self (a0 :: rest) mousetrap force prevHandlers?).ancestors)[i]?.map
          (fun sc => sc.lastChildSequence)
        = ((a0 :: rest)[i]?).map (fun _ => JSeq.jnull)) ∧
    (updateHotKeys ctx self (a0 :: rest) mousetrap force prevHandlers?).events
      = Event.notifyAncestors JSeq.jnull :: Event.resetBindings ::
          ((updateHotKeys ctx self (a0 :: rest) mousetrap force prevHandlers?).mousetrap).map
            Event.bindSequence := by
  refine ⟨?_, ?_, ?_⟩
  · simp [updateHotKeys, h]
  · intro i
    simp [updateHotKeys, h, childHandledSequence_getElem]
    exact option_map_ext _ _ _ (fun sc => rfl)
  · simp [updateHotKeys, h, syncHandlersToMousetrap_spec]

/-- Witness for C10: a mount-forced update notifies the single ancestor of the
null sequence before resetting and rebinding. -/
theorem updateHotKeys_clears_then_rebinds_witness :
    (updateHotKeys none ⟨none, none, [("a", 4)], false, JSeq.jnull, none⟩
        [⟨none, none, [], true, JSeq.jstr "a", none⟩] [] true none).ancestors
      = [⟨none, none, [], true, JSeq.jnull, none⟩] ∧
    (updateHotKeys none ⟨none, none, [("a", 4)], false, JSeq.jnull, none⟩
        [⟨none, none, [], true, JSeq.jstr "a", none⟩] [] true none).events
      = [Event.notifyAncestors JSeq.jnull, Event.resetBindings,
         Event.bindSequence ⟨4, none, "a"⟩] :=
  ⟨((updateHotKeys_clears_then_rebinds none ⟨none, none, [("a", 4)], false, JSeq.jnull, none⟩
      ⟨none, none, [], true, JSeq.jstr "a", none⟩ [] [] true none (by decide)).1).trans
    (by decide),
   ((updateHotKeys_clears_then_rebinds none ⟨none, none, [("a", 4)], false, JSeq.jnull, none⟩
      ⟨none, none, [], true, JSeq.jstr "a", none⟩ [] [] true none (by decide)).2.2).trans
    (by decide)⟩
